import Mathlib

/-!
# Portfolio page script (`src/main.js`): model and verified properties

The script binds DOM events to DOM mutations.  The model keeps exactly the
state those handlers read and write:

* an element's `classList` is the list of its class tokens;
* pixel quantities (`window.scrollY`, `offsetTop`, `offsetHeight`) are integers;
* `getAttribute` returns `Option String` (`none` for JavaScript `null`);
* `setTimeout` / `clearTimeout` act on an explicit timer table with a clock.

The hamburger trigger, the nav-links container, the body, the header and the
nav links are distinct elements, each with a class list of its own.
-/

namespace Portfolio

/-! ## DOM class lists -/

namespace classList

/-- The DOM call `classList.contains(token)`. -/
def contains (cl : List String) (token : String) : Bool :=
  cl.any (fun t => t == token)

/-- The DOM call `classList.add(token)`: the token is appended unless already present. -/
def add (cl : List String) (token : String) : List String :=
  if contains cl token then cl else cl ++ [token]

/-- The DOM call `classList.remove(token)`: every occurrence of the token goes. -/
def remove (cl : List String) (token : String) : List String :=
  cl.filter (fun t => t != token)

/-- The DOM call `classList.toggle(token)`: removes the token when present, adds it otherwise. -/
def toggle (cl : List String) (token : String) : List String :=
  if contains cl token then remove cl token else add cl token

end classList

/-! ## Header style (`navigation.handleHeaderScroll`, lines 165-179) -/

/-- The function handed to `utils.debounce` in `handleHeaderScroll`, run with
`window.scrollY = scrollY` on the header's class list. -/
def headerScrollAction (scrollY : Int) (header : List String) : List String :=
  if scrollY > 50 then classList.add header "scrolled"
  else classList.remove header "scrolled"

/-! ## Mobile menu (`navigation.toggleMobileMenu`, lines 102-131) -/

/-- The class lists of the three elements the menu handlers write. -/
structure MenuState where
  hamburger : List String
  navLinks : List String
  body : List String
  deriving DecidableEq

/-- The three removals shared by the nav-link handler and the document handler. -/
def closeMenu (m : MenuState) : MenuState :=
  { hamburger := classList.remove m.hamburger "active"
    navLinks := classList.remove m.navLinks "active"
    body := classList.remove m.body "menu-open" }

/-- Click listener of the hamburger (lines 105-110).  It stops propagation, so
the document listener does not run for this click. -/
def hamburgerClick (m : MenuState) : MenuState :=
  { hamburger := classList.toggle m.hamburger "active"
    navLinks := classList.toggle m.navLinks "active"
    body := classList.toggle m.body "menu-open" }

/-- Click listener of each nav link (lines 114-118). -/
def navLinkClick (m : MenuState) : MenuState :=
  closeMenu m

/-- Click listener of the document (lines 122-130).  `inHamburger` is
`hamburger.contains(e.target)` and `inNavLinks` is `navLinks.contains(e.target)`. -/
def documentClick (inHamburger inNavLinks : Bool) (m : MenuState) : MenuState :=
  if !inHamburger && !inNavLinks && classList.contains m.navLinks "active" then
    closeMenu m
  else m

/-- The value the script itself reads as "menu is open" (line 125). -/
def menuOpen (m : MenuState) : Bool :=
  classList.contains m.navLinks "active"

/-- The three mirrored class flags of a menu state: trigger, nav-links, body. -/
def menuFlags (m : MenuState) : Bool × Bool × Bool :=
  (classList.contains m.hamburger "active",
   classList.contains m.navLinks "active",
   classList.contains m.body "menu-open")

/-- A menu operation: one run of one of the three listeners. -/
inductive MenuEvent where
  | hamburger : MenuEvent
  | navLink : MenuEvent
  | document (inHamburger inNavLinks : Bool) : MenuEvent
  deriving DecidableEq

/-- Run the listener of one menu operation. -/
def menuStep (m : MenuState) : MenuEvent → MenuState
  | .hamburger => hamburgerClick m
  | .navLink => navLinkClick m
  | .document inHamburger inNavLinks => documentClick inHamburger inNavLinks m

/-- Run a finite sequence of menu operations. -/
def menuRun (m : MenuState) (evs : List MenuEvent) : MenuState :=
  evs.foldl menuStep m

/-- The three mirrored flags agree. -/
def synchronised (m : MenuState) : Prop :=
  (menuFlags m).1 = (menuFlags m).2.1 ∧ (menuFlags m).2.1 = (menuFlags m).2.2

/-! ## Active link (`navigation.handleActiveLink`, lines 136-160) -/

/-- What the scroll action reads of a `section` element. -/
structure PageSection where
  offsetTop : Int
  offsetHeight : Int
  id : Option String
  deriving DecidableEq

/-- What the scroll action reads and writes of a `.nav-link` element. -/
structure NavLink where
  href : Option String
  classList : List String
  deriving DecidableEq

/-- The template literal of line 150: "#" followed by the section id, where a
missing id attribute (`null`) is rendered as the text "null". -/
def hashOf (sectionId : Option String) : String :=
  "#" ++ sectionId.getD "null"

/-- The test of line 147 for one section. -/
def inSection (scrollPosition : Int) (sec : PageSection) : Bool :=
  let sectionTop := sec.offsetTop
  let sectionBottom := sectionTop + sec.offsetHeight
  decide (scrollPosition ≥ sectionTop) && decide (scrollPosition < sectionBottom)

/-- The inner loop of lines 148-153 for one link. -/
def markLink (sectionId : Option String) (link : NavLink) : NavLink :=
  let cleared := classList.remove link.classList "active"
  if link.href == some (hashOf sectionId) then
    { link with classList := classList.add cleared "active" }
  else
    { link with classList := cleared }

/-- The inner loop of lines 148-153 over all nav links. -/
def markLinks (sectionId : Option String) (links : List NavLink) : List NavLink :=
  links.map (markLink sectionId)

/-- The function handed to `utils.debounce` in `handleActiveLink` (lines
140-155), run with `window.scrollY = scrollY`. -/
def activeLinkAction (scrollY : Int) (sections : List PageSection)
    (links : List NavLink) : List NavLink :=
  let scrollPosition := scrollY + 100
  sections.foldl
    (fun ls sec => if inSection scrollPosition sec then markLinks sec.id ls else ls)
    links

/-- A nav link bears the class "active". -/
def isActive (link : NavLink) : Bool :=
  classList.contains link.classList "active"

/-- A nav link's href is "#" followed by the given section id. -/
def targets (sectionId : Option String) (link : NavLink) : Bool :=
  link.href == some (hashOf sectionId)

/-- Run the scroll action once for each offset of a list, in order. -/
def activeLinkRuns (sections : List PageSection) (links : List NavLink)
    (offsets : List Int) : List NavLink :=
  offsets.foldl (fun ls s => activeLinkAction s sections ls) links

/-- The last section, in document order, whose bounds contain
`scrollY + 100`: the one whose inner loop runs last. -/
def currentSection (scrollY : Int) (sections : List PageSection) : Option PageSection :=
  (sections.filter (inSection (scrollY + 100))).getLast?

/-! ## Debounce (`utils.debounce`, lines 45-55) over an explicit timer table -/

/-- A pending `setTimeout(later, wait)`: its id, the time it becomes due, and
the arguments captured by its `later` closure. -/
structure Timer (α : Type) where
  id : Nat
  due : Nat
  args : α

/-- The state of one debounced function: the clock, the timer table, the
closure variable `timeout`, and the log of calls made to `func`. -/
structure Debounced (α : Type) where
  now : Nat
  nextId : Nat
  timeout : Option Nat
  timers : List (Timer α)
  executed : List α

/-- A freshly created debounced function at clock value `t0`: `timeout` is
undefined, nothing is scheduled, `func` has not run. -/
def debounce (α : Type) (t0 : Nat) : Debounced α :=
  { now := t0, nextId := 0, timeout := none, timers := [], executed := [] }

/-- The call `clearTimeout(handle)`: drops the timer with that id; a no-op for
`undefined` or for an id that is not pending. -/
def clearTimeout {α : Type} (handle : Option Nat) (timers : List (Timer α)) :
    List (Timer α) :=
  match handle with
  | none => timers
  | some i => timers.filter (fun tm => tm.id != i)

/-- One call `executedFunction(...args)` (lines 47-54) at the current time. -/
def executedFunction {α : Type} (wait : Nat) (args : α) (st : Debounced α) :
    Debounced α :=
  let cleared := clearTimeout st.timeout st.timers
  { st with
    nextId := st.nextId + 1
    timeout := some st.nextId
    timers := cleared ++ [{ id := st.nextId, due := st.now + wait, args := args }] }

/-- The closure `later` (lines 48-51) of the call that captured `args`. -/
def later {α : Type} (args : α) (st : Debounced α) : Debounced α :=
  { st with
    timers := clearTimeout st.timeout st.timers
    executed := st.executed ++ [args] }

/-- The timer `tm` expires: if it is still pending it leaves the table and its
`later` runs; a timer cleared meanwhile does nothing. -/
def fireTimer {α : Type} (st : Debounced α) (tm : Timer α) : Debounced α :=
  if st.timers.any (fun x => x.id == tm.id) then
    later tm.args { st with timers := st.timers.filter (fun x => x.id != tm.id) }
  else st

/-- Let `d` milliseconds pass: every timer due by the new clock value expires,
earliest first. -/
def advance {α : Type} (d : Nat) (st : Debounced α) : Debounced α :=
  let t := st.now + d
  let expired := (st.timers.filter (fun tm => decide (tm.due ≤ t))).insertionSort
    (fun a b => a.due ≤ b.due)
  expired.foldl fireTimer { st with now := t }

/-- A burst after its first call: each further call comes `gap` milliseconds
after the previous one. -/
def burst {α : Type} (wait : Nat) (st : Debounced α) :
    List (Nat × α) → Debounced α
  | [] => st
  | (gap, args) :: rest => burst wait (executedFunction wait args (advance gap st)) rest

/-- The arguments of the last call of a burst. -/
def lastArgs {α : Type} (first : α) (rest : List (Nat × α)) : α :=
  (rest.map Prod.snd).getLast?.getD first

/-! ## Fade-in (`animations.observeElements`, lines 305-332) -/

/-- What the script writes of an animated element: three inline style
properties, and whether the observer watches it. -/
structure Animated where
  opacity : String
  transform : String
  transition : String
  observed : Bool
  deriving DecidableEq

/-- An `IntersectionObserverEntry`: its target (an index into the animated
elements) and its `isIntersecting` flag. -/
structure Entry where
  target : Nat
  isIntersecting : Bool
  deriving DecidableEq

/-- The loop of lines 326-331 for one element. -/
def observeElement (el : Animated) : Animated :=
  { el with
    opacity := "0"
    transform := "translateY(20px)"
    transition := "opacity 0.6s ease, transform 0.6s ease"
    observed := true }

/-- The loop of lines 326-331 over all animated elements. -/
def observeElements (els : List Animated) : List Animated :=
  els.map observeElement

/-- Lines 314-316 for the target of an intersecting entry. -/
def reveal (el : Animated) : Animated :=
  { el with opacity := "1", transform := "translateY(0)", observed := false }

/-- Apply `f` to the element at index `i`, if there is one. -/
def updateAt (f : Animated → Animated) : Nat → List Animated → List Animated
  | _, [] => []
  | 0, el :: els => f el :: els
  | i + 1, el :: els => el :: updateAt f i els

/-- The observer callback (lines 311-319) for one batch of entries. -/
def observerCallback (entries : List Entry) (els : List Animated) : List Animated :=
  entries.foldl
    (fun acc entry => if entry.isIntersecting then updateAt reveal entry.target acc else acc)
    els

/-- Run the observer callback once for each batch, in order. -/
def observerRuns (els : List Animated) (batches : List (List Entry)) : List Animated :=
  batches.foldl (fun acc entries => observerCallback entries acc) els

/-- Some entry of the batch reports element `i` as intersecting. -/
def reportedIn (i : Nat) (entries : List Entry) : Bool :=
  entries.any (fun e => e.isIntersecting && e.target == i)

/-- Some batch reports element `i` as intersecting. -/
def reported (i : Nat) (batches : List (List Entry)) : Bool :=
  batches.any (reportedIn i)

/-- The style and observation state an element has after `observeElements`. -/
def hidden (el : Animated) : Animated :=
  observeElement el

/-- The style and observation state of an element revealed after `observeElements`. -/
def shown (el : Animated) : Animated :=
  reveal (observeElement el)

/-! ## Class-list lemmas -/

theorem contains_iff (cl : List String) (t : String) :
    classList.contains cl t = true ↔ t ∈ cl := by
  simp [classList.contains]

theorem contains_remove (cl : List String) (t u : String) :
    classList.contains (classList.remove cl t) u
      = (classList.contains cl u && (u != t)) := by
  rw [Bool.eq_iff_iff]
  simp [classList.contains, classList.remove]

theorem contains_add (cl : List String) (t u : String) :
    classList.contains (classList.add cl t) u
      = (classList.contains cl u || (u == t)) := by
  rw [Bool.eq_iff_iff]
  unfold classList.add
  split
  · rename_i h
    rw [contains_iff] at h
    simp only [Bool.or_eq_true, contains_iff, beq_iff_eq]
    constructor
    · exact Or.inl
    · rintro (h1 | rfl)
      · exact h1
      · exact h
  · simp only [classList.contains, List.any_append, List.any_cons, List.any_nil, Bool.or_false,
      Bool.or_eq_true, beq_iff_eq]
    exact or_congr Iff.rfl eq_comm

theorem contains_toggle (cl : List String) (t u : String) :
    classList.contains (classList.toggle cl t) u
      = (if u = t then !classList.contains cl t else classList.contains cl u) := by
  unfold classList.toggle
  by_cases h : classList.contains cl t = true
  · rw [if_pos h, contains_remove]
    by_cases hu : u = t
    · subst hu; simp [h]
    · simp [hu]
  · rw [if_neg h, contains_add]
    by_cases hu : u = t
    · subst hu; simpa using h
    · simp [hu]

theorem remove_remove (cl : List String) (t : String) :
    classList.remove (classList.remove cl t) t = classList.remove cl t := by
  simp [classList.remove, List.filter_filter]

theorem remove_add (cl : List String) (t : String) :
    classList.remove (classList.add cl t) t = classList.remove cl t := by
  unfold classList.add
  split
  · rfl
  · simp [classList.remove, List.filter_append]

theorem add_add (cl : List String) (t : String) :
    classList.add (classList.add cl t) t = classList.add cl t := by
  have h : classList.contains (classList.add cl t) t = true := by
    rw [contains_add]; simp
  generalize classList.add cl t = cl2 at h
  unfold classList.add
  rw [if_pos h]

/-! ## C1: header style -/

/-- C1: for every scroll offset and every prior class list of the header, after
the header scroll action the header bears the class "scrolled" exactly when the
offset exceeds 50; in particular offset 50 clears it and offset 51 sets it. -/
theorem header_scrolled_iff (s : Int) (header : List String) :
    (classList.contains (headerScrollAction s header) "scrolled" = true ↔ s > 50)
    ∧ classList.contains (headerScrollAction 50 header) "scrolled" = false
    ∧ classList.contains (headerScrollAction 51 header) "scrolled" = true := by
  refine ⟨?_, ?_, ?_⟩
  · unfold headerScrollAction
    by_cases h : s > 50
    · simp [h, contains_add]
    · simp [h, contains_remove]
  · simp [headerScrollAction, contains_remove]
  · simp [headerScrollAction, contains_add]

/-! ## Menu lemmas -/

theorem menuFlags_closeMenu (m : MenuState) :
    menuFlags (closeMenu m) = (false, false, false) := by
  simp [menuFlags, closeMenu, contains_remove]

theorem menuFlags_hamburgerClick (m : MenuState) :
    menuFlags (hamburgerClick m)
      = (!(menuFlags m).1, !(menuFlags m).2.1, !(menuFlags m).2.2) := by
  simp [menuFlags, hamburgerClick, contains_toggle]

theorem closeMenu_closeMenu (m : MenuState) : closeMenu (closeMenu m) = closeMenu m := by
  simp [closeMenu, remove_remove]

theorem synchronised_menuStep (m : MenuState) (ev : MenuEvent) (h : synchronised m) :
    synchronised (menuStep m ev) := by
  cases ev with
  | hamburger =>
    obtain ⟨h1, h2⟩ := h
    simp only [menuStep, synchronised, menuFlags_hamburgerClick]
    exact ⟨by rw [h1], by rw [h2]⟩
  | navLink =>
    simp [menuStep, navLinkClick, synchronised, menuFlags_closeMenu]
  | document inHamburger inNavLinks =>
    simp only [menuStep, documentClick]
    split
    · simp [synchronised, menuFlags_closeMenu]
    · exact h

theorem synchronised_menuRun (evs : List MenuEvent) (m : MenuState) (h : synchronised m) :
    synchronised (menuRun m evs) := by
  induction evs generalizing m with
  | nil => exact h
  | cons ev evs ih => exact ih (menuStep m ev) (synchronised_menuStep m ev h)

/-! ## C4: two hamburger clicks -/

/-- C4: for every menu state, two runs of the hamburger click handler give back
the original value of each of the three class flags (trigger "active",
nav-links "active", body "menu-open") and of `menuOpen`; membership of every
other class token is untouched as well. -/
theorem hamburgerClick_twice (m : MenuState) :
    menuFlags (hamburgerClick (hamburgerClick m)) = menuFlags m
    ∧ menuOpen (hamburgerClick (hamburgerClick m)) = menuOpen m
    ∧ ∀ token : String,
        classList.contains (hamburgerClick (hamburgerClick m)).hamburger token
          = classList.contains m.hamburger token
        ∧ classList.contains (hamburgerClick (hamburgerClick m)).navLinks token
          = classList.contains m.navLinks token
        ∧ classList.contains (hamburgerClick (hamburgerClick m)).body token
          = classList.contains m.body token := by
  refine ⟨?_, ?_, ?_⟩
  · simp [menuFlags_hamburgerClick]
  · simp [menuOpen, hamburgerClick, contains_toggle]
  · intro token
    simp only [hamburgerClick, contains_toggle]
    refine ⟨?_, ?_, ?_⟩ <;> split <;> simp_all

/-! ## C5: document click -/

/-- C5: a document click outside both the trigger and the nav-links container
clears all three open classes when the menu is open (so `menuOpen` goes from
true to false) and changes nothing when the menu is closed; a click inside the
trigger or inside the container changes nothing, whatever the state. -/
theorem documentClick_spec (m : MenuState) :
    (menuOpen m = true →
        menuFlags (documentClick false false m) = (false, false, false)
        ∧ menuOpen (documentClick false false m) = false)
    ∧ (menuOpen m = false → documentClick false false m = m)
    ∧ (∀ inHamburger inNavLinks : Bool, (inHamburger = true ∨ inNavLinks = true) →
        documentClick inHamburger inNavLinks m = m) := by
  refine ⟨?_, ?_, ?_⟩
  · intro h
    have h2 : classList.contains m.navLinks "active" = true := h
    simp only [documentClick, h2, Bool.not_false, Bool.and_self, if_true, menuFlags_closeMenu,
      true_and]
    simp [menuOpen, closeMenu, contains_remove]
  · intro h
    have h2 : classList.contains m.navLinks "active" = false := h
    simp [documentClick, h2]
  · rintro inHamburger inNavLinks (h | h) <;> simp [documentClick, h]

/-- C5 at concrete states: an open menu, a closed menu, and a click inside. -/
theorem documentClick_spec_witness :
    menuFlags (documentClick false false
        ⟨["hamburger", "active"], ["nav-links", "active"], ["menu-open"]⟩)
      = (false, false, false)
    ∧ documentClick false false ⟨["hamburger"], ["nav-links"], []⟩
      = ⟨["hamburger"], ["nav-links"], []⟩
    ∧ documentClick false true
        ⟨["hamburger", "active"], ["nav-links", "active"], ["menu-open"]⟩
      = ⟨["hamburger", "active"], ["nav-links", "active"], ["menu-open"]⟩ :=
  ⟨((documentClick_spec _).1 (by decide)).1,
   (documentClick_spec _).2.1 (by decide),
   (documentClick_spec _).2.2 false true (Or.inr rfl)⟩

/-! ## C6: the menu and its trigger stay synchronised -/

/-- C6: from any closed initial state (no "active" on trigger or nav-links, no
"menu-open" on body), after any finite sequence of hamburger clicks, nav-link
clicks and document clicks (inside or outside), the three classes are all
present or all absent. -/
theorem menu_synchronised (m0 : MenuState) (evs : List MenuEvent)
    (h0 : menuFlags m0 = (false, false, false)) :
    menuFlags (menuRun m0 evs) = (true, true, true)
    ∨ menuFlags (menuRun m0 evs) = (false, false, false) := by
  have hs : synchronised (menuRun m0 evs) :=
    synchronised_menuRun evs m0 (by simp [synchronised, h0])
  obtain ⟨h1, h2⟩ := hs
  generalize menuFlags (menuRun m0 evs) = f at h1 h2
  obtain ⟨a, b, c⟩ := f
  simp only at h1 h2
  subst h1 h2
  cases a <;> simp

/-- C6 at a concrete run: open, click inside, click a link, open again. -/
theorem menu_synchronised_witness :
    menuFlags ⟨["hamburger"], ["nav-links"], []⟩ = (false, false, false)
    ∧ (menuFlags (menuRun ⟨["hamburger"], ["nav-links"], []⟩
          [.hamburger, .document false true, .navLink, .hamburger]) = (true, true, true)
       ∨ menuFlags (menuRun ⟨["hamburger"], ["nav-links"], []⟩
          [.hamburger, .document false true, .navLink, .hamburger])
            = (false, false, false)) :=
  ⟨by decide, menu_synchronised _ _ (by decide)⟩

/-! ## Active-link lemmas -/

theorem markLink_markLink (a b : Option String) (link : NavLink) :
    markLink a (markLink b link) = markLink a link := by
  unfold markLink
  by_cases hb : (link.href == some (hashOf b)) = true <;>
  by_cases ha : (link.href == some (hashOf a)) = true <;>
  simp [ha, hb, remove_add, remove_remove]

theorem markLinks_markLinks (a b : Option String) (links : List NavLink) :
    markLinks a (markLinks b links) = markLinks a links := by
  simp [markLinks, List.map_map, Function.comp_def, markLink_markLink]

theorem isActive_markLink (a : Option String) (link : NavLink) :
    isActive (markLink a link) = targets a link := by
  unfold markLink isActive targets
  by_cases ha : (link.href == some (hashOf a)) = true
  · simp [ha, contains_add]
  · simp [ha, contains_remove]

theorem href_markLink (a : Option String) (link : NavLink) :
    (markLink a link).href = link.href := by
  unfold markLink
  split <;> rfl

theorem targets_markLink (a b : Option String) (link : NavLink) :
    targets a (markLink b link) = targets a link := by
  simp [targets, href_markLink]

theorem countP_isActive_markLinks (a : Option String) (links : List NavLink) :
    (markLinks a links).countP isActive = links.countP (targets a) := by
  simp [markLinks, List.countP_map, Function.comp_def, isActive_markLink]

theorem countP_targets_markLinks (a b : Option String) (links : List NavLink) :
    (markLinks b links).countP (targets a) = links.countP (targets a) := by
  simp [markLinks, List.countP_map, Function.comp_def, targets_markLink]

theorem activeLinkAction_eq (s : Int) (sections : List PageSection) (links : List NavLink) :
    activeLinkAction s sections links
      = match currentSection s sections with
        | none => links
        | some sec => markLinks sec.id links := by
  induction sections using List.reverseRecOn with
  | nil => simp [activeLinkAction, currentSection]
  | append_singleton init sec ih =>
    have hfold : activeLinkAction s (init ++ [sec]) links
        = if inSection (s + 100) sec then markLinks sec.id (activeLinkAction s init links)
          else activeLinkAction s init links := by
      simp [activeLinkAction, List.foldl_append]
    rw [hfold, ih]
    by_cases hin : inSection (s + 100) sec = true
    · have hcur : currentSection s (init ++ [sec]) = some sec := by
        simp [currentSection, List.filter_append, hin]
      rw [hcur, if_pos hin]
      cases currentSection s init with
      | none => rfl
      | some prev => exact markLinks_markLinks _ _ _
    · have hcur : currentSection s (init ++ [sec]) = currentSection s init := by
        simp [currentSection, List.filter_append, hin]
      rw [hcur, if_neg hin]

theorem currentSection_mem (s : Int) (sections : List PageSection) (sec : PageSection)
    (h : currentSection s sections = some sec) :
    sec ∈ sections ∧ inSection (s + 100) sec = true := by
  have hm : sec ∈ sections.filter (inSection (s + 100)) :=
    List.mem_of_getLast?_eq_some h
  simpa [List.mem_filter] using hm

theorem countP_targets_activeLinkAction (a : Option String) (s : Int)
    (sections : List PageSection) (links : List NavLink) :
    (activeLinkAction s sections links).countP (targets a) = links.countP (targets a) := by
  rw [activeLinkAction_eq]
  cases currentSection s sections with
  | none => rfl
  | some sec => exact countP_targets_markLinks _ _ _

theorem activeLinkAction_idem (s : Int) (sections : List PageSection) (links : List NavLink) :
    activeLinkAction s sections (activeLinkAction s sections links)
      = activeLinkAction s sections links := by
  rw [activeLinkAction_eq s sections (activeLinkAction s sections links),
    activeLinkAction_eq s sections links]
  cases currentSection s sections with
  | none => rfl
  | some sec => exact markLinks_markLinks _ _ _

/-! ## C2: the link of the current section -/

/-- C2 as stated fails: the one section containing `scrollY + 100` has id
"about", but no nav link targets "#about", so no link is active after the
action; and when two nav links target "#about", both are active. -/
theorem activeLink_exactly_one_counterexample :
    ([⟨0, 600, some "home"⟩, ⟨600, 800, some "about"⟩] : List PageSection).filter
        (inSection (700 + 100)) = [⟨600, 800, some "about"⟩]
    ∧ (activeLinkAction 700 [⟨0, 600, some "home"⟩, ⟨600, 800, some "about"⟩]
        [⟨some "#home", ["nav-link", "active"]⟩, ⟨some "#contact", ["nav-link"]⟩]).countP
          isActive = 0
    ∧ (activeLinkAction 700 [⟨0, 600, some "home"⟩, ⟨600, 800, some "about"⟩]
        [⟨some "#about", ["nav-link"]⟩, ⟨some "#about", ["nav-link"]⟩]).countP
          isActive = 2 := by
  decide

/-- C2 (amended): when `scrollY + 100` lies in the bounds of exactly one
section and exactly one nav link has the href "#" followed by that section's
id, then after the active-link scroll action exactly one nav link bears
"active", every active link has that href, and a link is active exactly when
it has that href. -/
theorem activeLink_exactly_one (s : Int) (sections : List PageSection)
    (links : List NavLink) (sec : PageSection)
    (hsec : sections.filter (inSection (s + 100)) = [sec])
    (hlink : links.countP (targets sec.id) = 1) :
    (activeLinkAction s sections links).countP isActive = 1
    ∧ (∀ link ∈ activeLinkAction s sections links,
        isActive link = true → link.href = some (hashOf sec.id))
    ∧ (∀ link ∈ activeLinkAction s sections links,
        isActive link = targets sec.id link) := by
  have hcur : currentSection s sections = some sec := by
    simp [currentSection, hsec]
  have hact : activeLinkAction s sections links = markLinks sec.id links := by
    rw [activeLinkAction_eq, hcur]
  have hiff : ∀ link ∈ activeLinkAction s sections links,
      isActive link = targets sec.id link := by
    intro link hmem
    rw [hact, markLinks, List.mem_map] at hmem
    obtain ⟨l0, _, rfl⟩ := hmem
    rw [isActive_markLink, targets_markLink]
  refine ⟨?_, ?_, hiff⟩
  · rw [hact, countP_isActive_markLinks, hlink]
  · intro link hmem hactive
    have ht : targets sec.id link = true := by rw [← hiff link hmem]; exact hactive
    simpa [targets] using ht

/-- C2 (amended) at a concrete page: offset 700 lies in "about" only. -/
theorem activeLink_exactly_one_witness :
    (activeLinkAction 700 [⟨0, 600, some "home"⟩, ⟨600, 800, some "about"⟩]
        [⟨some "#home", ["nav-link", "active"]⟩, ⟨some "#about", ["nav-link"]⟩]).countP
          isActive = 1 :=
  (activeLink_exactly_one 700 [⟨0, 600, some "home"⟩, ⟨600, 800, some "about"⟩]
    [⟨some "#home", ["nav-link", "active"]⟩, ⟨some "#about", ["nav-link"]⟩]
    ⟨600, 800, some "about"⟩ (by decide) (by decide)).1

/-! ## C9: no section matches -/

/-- C9: when `scrollY + 100` lies in no section's bounds, the active-link
scroll action returns every nav link unchanged, so every "active" flag is
exactly as before. -/
theorem activeLink_stale (s : Int) (sections : List PageSection) (links : List NavLink)
    (hnone : ∀ sec ∈ sections, inSection (s + 100) sec = false) :
    activeLinkAction s sections links = links
    ∧ (activeLinkAction s sections links).map isActive = links.map isActive := by
  have hfilter : sections.filter (inSection (s + 100)) = [] := by
    rw [List.filter_eq_nil_iff]
    intro sec hmem
    simp [hnone sec hmem]
  have hact : activeLinkAction s sections links = links := by
    rw [activeLinkAction_eq]
    simp [currentSection, hfilter]
  exact ⟨hact, by rw [hact]⟩

/-- C9 at a concrete page with a gap between the two sections: offset 450
gives position 550, in neither [0, 500) nor [600, 1400). -/
theorem activeLink_stale_witness :
    activeLinkAction 450 [⟨0, 500, some "home"⟩, ⟨600, 800, some "about"⟩]
        [⟨some "#home", ["nav-link", "active"]⟩, ⟨some "#about", ["nav-link"]⟩]
      = [⟨some "#home", ["nav-link", "active"]⟩, ⟨some "#about", ["nav-link"]⟩] :=
  (activeLink_stale 450 [⟨0, 500, some "home"⟩, ⟨600, 800, some "about"⟩]
    [⟨some "#home", ["nav-link", "active"]⟩, ⟨some "#about", ["nav-link"]⟩]
    (by decide)).1

/-! ## C7: at most one active link -/

/-- C7 as stated fails: with two nav links sharing the href "#about" (none
active at first), one run of the action inside section "about" leaves two
active links. -/
theorem activeLink_at_most_one_counterexample :
    ([⟨some "#about", ["nav-link"]⟩, ⟨some "#about", ["nav-link"]⟩] :
        List NavLink).countP isActive ≤ 1
    ∧ ¬ ((activeLinkRuns [⟨0, 500, some "about"⟩]
          [⟨some "#about", ["nav-link"]⟩, ⟨some "#about", ["nav-link"]⟩] [0]).countP
            isActive ≤ 1) := by
  decide

/-- C7 (amended): if for every section at most one nav link has the href "#"
followed by that section's id, then starting from at most one active link,
after any finite sequence of runs of the active-link scroll action at arbitrary
offsets, at most one nav link is active. -/
theorem activeLink_at_most_one (sections : List PageSection) (links : List NavLink)
    (offsets : List Int)
    (hdistinct : ∀ sec ∈ sections, links.countP (targets sec.id) ≤ 1)
    (h0 : links.countP isActive ≤ 1) :
    (activeLinkRuns sections links offsets).countP isActive ≤ 1 := by
  induction offsets generalizing links with
  | nil => exact h0
  | cons s rest ih =>
    have hstep : (activeLinkAction s sections links).countP isActive ≤ 1 := by
      rw [activeLinkAction_eq]
      cases hcur : currentSection s sections with
      | none => exact h0
      | some sec =>
        have hmem := (currentSection_mem s sections sec hcur).1
        simp only
        rw [countP_isActive_markLinks]
        exact hdistinct sec hmem
    have hkeep : ∀ sec ∈ sections,
        (activeLinkAction s sections links).countP (targets sec.id) ≤ 1 := by
      intro sec hmem
      rw [countP_targets_activeLinkAction]
      exact hdistinct sec hmem
    exact ih (activeLinkAction s sections links) hkeep hstep

/-- C7 (amended) at a concrete page and three scroll offsets. -/
theorem activeLink_at_most_one_witness :
    (activeLinkRuns [⟨0, 500, some "home"⟩, ⟨600, 800, some "about"⟩]
        [⟨some "#home", ["nav-link", "active"]⟩, ⟨some "#about", ["nav-link"]⟩]
        [0, 450, 700]).countP isActive ≤ 1 :=
  activeLink_at_most_one [⟨0, 500, some "home"⟩, ⟨600, 800, some "about"⟩]
    [⟨some "#home", ["nav-link", "active"]⟩, ⟨some "#about", ["nav-link"]⟩]
    [0, 450, 700] (by decide) (by decide)

/-! ## Debounce lemmas -/

theorem clearTimeout_own {α : Type} (handle : Option Nat) (timers : List (Timer α))
    (h : ∀ tm ∈ timers, handle = some tm.id) : clearTimeout handle timers = [] := by
  cases handle with
  | none =>
    cases timers with
    | nil => rfl
    | cons tm rest => exact absurd (h tm (List.mem_cons_self _ _)) (by simp)
  | some i =>
    simp only [clearTimeout, List.filter_eq_nil_iff]
    intro tm hmem
    have := h tm hmem
    simp only [Option.some.injEq] at this
    simp [this]

theorem executedFunction_armed {α : Type} (wait : Nat) (args : α) (st : Debounced α)
    (h : ∀ tm ∈ st.timers, st.timeout = some tm.id) :
    executedFunction wait args st
      = { st with
          nextId := st.nextId + 1
          timeout := some st.nextId
          timers := [{ id := st.nextId, due := st.now + wait, args := args }] } := by
  simp [executedFunction, clearTimeout_own st.timeout st.timers h]

theorem advance_not_due {α : Type} (d : Nat) (st : Debounced α) (tm : Timer α)
    (ht : st.timers = [tm]) (hdue : st.now + d < tm.due) :
    advance d st = { st with now := st.now + d } := by
  have hf : st.timers.filter (fun x => decide (x.due ≤ st.now + d)) = [] := by
    rw [ht]
    simp [Nat.not_le.mpr hdue]
  simp [advance, hf]

theorem advance_due {α : Type} (d : Nat) (st : Debounced α) (tm : Timer α)
    (ht : st.timers = [tm]) (hdue : tm.due ≤ st.now + d) :
    advance d st
      = { st with now := st.now + d, timers := [], executed := st.executed ++ [tm.args] } := by
  have hf : st.timers.filter (fun x => decide (x.due ≤ st.now + d)) = [tm] := by
    rw [ht]
    simp [hdue]
  unfold advance
  simp only []
  rw [hf]
  simp [fireTimer, later, ht]
  cases st.timeout <;> simp [clearTimeout]

theorem lastArgs_cons {α : Type} (first : α) (gap : Nat) (args : α) (rest : List (Nat × α)) :
    lastArgs first ((gap, args) :: rest) = lastArgs args rest := by
  cases rest with
  | nil => simp [lastArgs]
  | cons p rest => simp [lastArgs, List.getLast?_cons]

theorem burst_quiet {α : Type} (wait q : Nat) (hq : wait ≤ q) (rest : List (Nat × α)) :
    ∀ (st : Debounced α) (i : Nat) (a : α),
      st.timers = [{ id := i, due := st.now + wait, args := a }] →
      st.timeout = some i →
      (∀ p ∈ rest, p.1 < wait) →
      (advance q (burst wait st rest)).executed = st.executed ++ [lastArgs a rest] := by
  induction rest with
  | nil =>
    intro st i a ht _ _
    rw [burst, advance_due q st _ ht (by simpa using hq)]
    simp [lastArgs]
  | cons p rest ih =>
    intro st i a ht hto hgaps
    obtain ⟨gap, b⟩ := p
    have hgap : gap < wait := hgaps (gap, b) (List.mem_cons_self _ _)
    have hadv := advance_not_due gap st _ ht (by simpa using hgap)
    have harm : ∀ tm ∈ (advance gap st).timers, (advance gap st).timeout = some tm.id := by
      rw [hadv]
      intro tm hmem
      simp only [ht, List.mem_singleton] at hmem
      subst hmem
      exact hto
    have hcall := executedFunction_armed wait b (advance gap st) harm
    rw [burst, lastArgs_cons]
    have := ih (executedFunction wait b (advance gap st)) (advance gap st).nextId b
      (by rw [hcall]) (by rw [hcall])
      (fun p hp => hgaps p (List.mem_cons_of_mem _ hp))
    rw [this, hcall, hadv]

/-! ## C3: a burst runs the action once, with the last arguments -/

/-- C3: for a freshly debounced function with delay `wait`, a burst of N ≥ 1
calls (a first call, then calls each arriving less than `wait` milliseconds
after the previous one) followed by a quiet period of at least `wait`
milliseconds runs `func` exactly once, with the arguments of the last call. -/
theorem debounce_burst {α : Type} (wait t0 q : Nat) (first : α) (rest : List (Nat × α))
    (hgaps : ∀ p ∈ rest, p.1 < wait) (hq : wait ≤ q) :
    (advance q (burst wait (executedFunction wait first (debounce α t0)) rest)).executed
        = [lastArgs first rest]
    ∧ (advance q (burst wait (executedFunction wait first (debounce α t0)) rest)).executed.length
        = 1 := by
  have h := burst_quiet wait q hq rest (executedFunction wait first (debounce α t0)) 0 first
    (by simp [executedFunction, debounce, clearTimeout])
    (by simp [executedFunction, debounce])
    hgaps
  have hexec : (executedFunction wait first (debounce α t0)).executed = [] := by
    simp [executedFunction, debounce]
  rw [hexec, List.nil_append] at h
  exact ⟨h, by rw [h]; rfl⟩

/-- C3 at a concrete burst: three calls at times 0, 40 and 130 with delay 100,
then 100 quiet milliseconds. -/
theorem debounce_burst_witness :
    (advance 100 (burst 100 (executedFunction 100 "a" (debounce String 0))
        [(40, "b"), (90, "c")])).executed = ["c"] :=
  (debounce_burst 100 0 100 "a" [(40, "b"), (90, "c")] (by decide) (by decide)).1

/-! ## Fade-in lemmas -/

theorem reveal_reveal (el : Animated) : reveal (reveal el) = reveal el := rfl

theorem getElem?_updateAt (f : Animated → Animated) (i j : Nat) (els : List Animated) :
    (updateAt f i els)[j]? = if i = j then els[j]?.map f else els[j]? := by
  induction els generalizing i j with
  | nil => simp [updateAt]
  | cons el els ih =>
    cases i with
    | zero =>
      cases j with
      | zero => simp [updateAt]
      | succ j => simp [updateAt]
    | succ i =>
      cases j with
      | zero => simp [updateAt]
      | succ j => simp [updateAt, ih]

theorem getElem?_observerCallback (entries : List Entry) (els : List Animated) (j : Nat) :
    (observerCallback entries els)[j]?
      = if reportedIn j entries then els[j]?.map reveal else els[j]? := by
  induction entries generalizing els with
  | nil => simp [observerCallback, reportedIn]
  | cons e rest ih =>
    have hstep : observerCallback (e :: rest) els
        = observerCallback rest
            (if e.isIntersecting then updateAt reveal e.target els else els) := by
      simp [observerCallback]
    rw [hstep, ih]
    by_cases hi : e.isIntersecting = true
    · by_cases ht : e.target = j
      · cases hel : els[j]? <;>
          simp [hi, ht, reportedIn, getElem?_updateAt, hel, reveal_reveal]
      · simp [hi, ht, reportedIn, getElem?_updateAt]
    · simp [hi, reportedIn]

theorem getElem?_observerRuns (batches : List (List Entry)) (els : List Animated) (j : Nat) :
    (observerRuns els batches)[j]?
      = if reported j batches then els[j]?.map reveal else els[j]? := by
  induction batches generalizing els with
  | nil => simp [observerRuns, reported]
  | cons b rest ih =>
    have hstep : observerRuns els (b :: rest) = observerRuns (observerCallback b els) rest := by
      simp [observerRuns]
    rw [hstep, ih, getElem?_observerCallback]
    by_cases hb : reportedIn j b = true
    · cases hel : els[j]? <;> simp [hb, reported, reveal_reveal]
    · simp [hb, reported]

theorem observerCallback_idem (entries : List Entry) (els : List Animated) :
    observerCallback entries (observerCallback entries els) = observerCallback entries els := by
  apply List.ext_getElem?
  intro j
  rw [getElem?_observerCallback entries (observerCallback entries els),
    getElem?_observerCallback entries els]
  by_cases hb : reportedIn j entries = true
  · cases hel : els[j]? <;> simp [hb, reveal_reveal]
  · simp [hb]

/-! ## C10: fade-in fires at most once -/

/-- C10: let an animated element be initialised by `observeElements`.  For
every sequence of observer callbacks: while no entry has reported it as
intersecting it stays at opacity "0", offset 20px and observed; the first
callback with an entry reporting it as intersecting leaves it at opacity "1",
offset cleared and no longer observed; and it stays so after any later
callbacks. -/
theorem fadeIn_once (els : List Animated) (i : Nat) (el : Animated)
    (hel : els[i]? = some el) :
    ((hidden el).opacity = "0" ∧ (hidden el).transform = "translateY(20px)"
        ∧ (hidden el).observed = true)
    ∧ ((shown el).opacity = "1" ∧ (shown el).transform = "translateY(0)"
        ∧ (shown el).observed = false)
    ∧ (observeElements els)[i]? = some (hidden el)
    ∧ (∀ batches : List (List Entry), reported i batches = false →
        (observerRuns (observeElements els) batches)[i]? = some (hidden el))
    ∧ (∀ (before : List (List Entry)) (batch : List Entry) (after : List (List Entry)),
        reported i before = false → reportedIn i batch = true →
        (observerRuns (observeElements els) (before ++ [batch]))[i]? = some (shown el)
        ∧ (observerRuns (observeElements els) (before ++ batch :: after))[i]?
            = some (shown el)) := by
  have hinit : (observeElements els)[i]? = some (hidden el) := by
    simp [observeElements, hel, hidden]
  refine ⟨⟨rfl, rfl, rfl⟩, ⟨rfl, rfl, rfl⟩, hinit, ?_, ?_⟩
  · intro batches hno
    rw [getElem?_observerRuns, hinit]
    simp [hno]
  · intro before batch after _ hyes
    constructor
    · rw [getElem?_observerRuns, hinit]
      simp [reported, hyes, shown, hidden]
    · rw [getElem?_observerRuns, hinit]
      simp [reported, hyes, shown, hidden]

/-- C10 at a concrete page of two cards: the second is reported once and then
reported as leaving and entering again; the first is never reported. -/
theorem fadeIn_once_witness :
    (observerRuns (observeElements [⟨"", "", "", false⟩, ⟨"", "", "", false⟩])
        ([[⟨0, false⟩, ⟨1, false⟩]] ++ [⟨1, true⟩] :: [[⟨1, false⟩], [⟨1, true⟩]]))[1]?
      = some (shown ⟨"", "", "", false⟩)
    ∧ (observerRuns (observeElements [⟨"", "", "", false⟩, ⟨"", "", "", false⟩])
        [[⟨0, false⟩, ⟨1, false⟩], [⟨1, true⟩], [⟨1, false⟩], [⟨1, true⟩]])[0]?
      = some (hidden ⟨"", "", "", false⟩) :=
  ⟨((fadeIn_once [⟨"", "", "", false⟩, ⟨"", "", "", false⟩] 1 ⟨"", "", "", false⟩
      (by decide)).2.2.2.2 [[⟨0, false⟩, ⟨1, false⟩]] [⟨1, true⟩]
      [[⟨1, false⟩], [⟨1, true⟩]] (by decide) (by decide)).2,
   (fadeIn_once [⟨"", "", "", false⟩, ⟨"", "", "", false⟩] 0 ⟨"", "", "", false⟩
      (by decide)).2.2.2.1 _ (by decide)⟩

/-! ## C8: which handlers are idempotent -/

theorem documentClick_idem (inHamburger inNavLinks : Bool) (m : MenuState) :
    documentClick inHamburger inNavLinks (documentClick inHamburger inNavLinks m)
      = documentClick inHamburger inNavLinks m := by
  by_cases hc :
      (!inHamburger && !inNavLinks && classList.contains m.navLinks "active") = true
  · have h1 : documentClick inHamburger inNavLinks m = closeMenu m := by
      simp only [documentClick, hc, if_true]
    have h2 : classList.contains (closeMenu m).navLinks "active" = false := by
      simp [closeMenu, contains_remove]
    rw [h1]
    simp [documentClick, h2]
  · have h1 : documentClick inHamburger inNavLinks m = m := by
      simp only [documentClick, hc]
      rfl
    rw [h1, h1]

theorem headerScrollAction_idem (s : Int) (header : List String) :
    headerScrollAction s (headerScrollAction s header) = headerScrollAction s header := by
  unfold headerScrollAction
  by_cases h : s > 50
  · simp [h, add_add]
  · simp [h, remove_remove]

/-- C8 as stated fails: on the closed menu, two hamburger clicks give the
closed flags while one click gives the open flags. -/
theorem handlers_idempotent_counterexample :
    menuFlags (hamburgerClick (hamburgerClick ⟨["hamburger"], ["nav-links"], []⟩))
      = (false, false, false)
    ∧ menuFlags (hamburgerClick ⟨["hamburger"], ["nav-links"], []⟩) = (true, true, true)
    ∧ hamburgerClick (hamburgerClick ⟨["hamburger"], ["nav-links"], []⟩)
      ≠ hamburgerClick ⟨["hamburger"], ["nav-links"], []⟩ := by
  decide

/-- C8 (amended): the nav-link click, the document click (for any target), the
header scroll action, the active-link scroll action and the intersection
callback are idempotent: run twice in the same environment they give the state
they give when run once.  The hamburger click is a toggle and is never
idempotent: a second click always changes the three flags again. -/
theorem handlers_idempotent :
    (∀ m : MenuState, navLinkClick (navLinkClick m) = navLinkClick m)
    ∧ (∀ (inHamburger inNavLinks : Bool) (m : MenuState),
        documentClick inHamburger inNavLinks (documentClick inHamburger inNavLinks m)
          = documentClick inHamburger inNavLinks m)
    ∧ (∀ (s : Int) (header : List String),
        headerScrollAction s (headerScrollAction s header) = headerScrollAction s header)
    ∧ (∀ (s : Int) (sections : List PageSection) (links : List NavLink),
        activeLinkAction s sections (activeLinkAction s sections links)
          = activeLinkAction s sections links)
    ∧ (∀ (entries : List Entry) (els : List Animated),
        observerCallback entries (observerCallback entries els)
          = observerCallback entries els)
    ∧ (∀ m : MenuState,
        menuFlags (hamburgerClick (hamburgerClick m)) ≠ menuFlags (hamburgerClick m)) := by
  refine ⟨?_, documentClick_idem, headerScrollAction_idem, activeLinkAction_idem,
    observerCallback_idem, ?_⟩
  · intro m
    exact closeMenu_closeMenu m
  · intro m
    rw [menuFlags_hamburgerClick (hamburgerClick m)]
    intro h
    have h1 := congrArg Prod.fst h
    simp at h1

end Portfolio
